import Mathlib

/-!
Verification of the `conic` CPTu data-processing pipeline.

The repository's core (crate `conic-core`) transforms a table of named
float64 columns through a fixed pipeline: load/validate, clean
(remove/replace sentinel-flagged rows), depth regularization, stress
computation with optional centered rolling smoothing, and an iterative
soil-behavior solver.

Embedding conventions:
* `f64` is modelled by `F`: a rational number extended with `nan`,
  `pinf` and `ninf`.  Finite arithmetic is exact rational arithmetic
  (the idealization of floating point); the IEEE special-value rules
  for NaN and infinities are reproduced case by case.  The signed zero
  distinction of `f64` is collapsed to a single zero.
* The transcendental `f64` primitives `powf`, `log10` and `sqrt` have
  no exact rational counterpart; they are abstracted as the fields of
  a `RealOps` parameter.  Control-flow and data-flow theorems hold for
  every instantiation; concrete evaluations instantiate them with
  `opsPow1`, which agrees with IEEE 754 `pow` on the only case those
  evaluations exercise (`pow x 1 = x`).
* A polars `DataFrame` is modelled row-wise by `Frame`: a list of
  column names and a list of rows.  Rectangularity is the predicate
  `Frame.wf`.  The horizontal polars expressions of the source
  (`any_horizontal` / `all_horizontal` of per-column `is_in` masks)
  become row-wise predicates, which is the same function on
  rectangular data.
-/

namespace Conic

/-- Model of `f64`: exact rationals plus the IEEE special values. -/
inductive F where
  | fin (q : ℚ)
  | pinf
  | ninf
  | nan
deriving DecidableEq, Repr

/-- IEEE negation. -/
def Fneg : F → F
  | .fin a => .fin (-a)
  | .pinf => .ninf
  | .ninf => .pinf
  | .nan => .nan

/-- IEEE addition (NaN propagates, `+∞ + -∞ = NaN`). -/
def Fadd : F → F → F
  | .nan, _ => .nan
  | _, .nan => .nan
  | .fin a, .fin b => .fin (a + b)
  | .fin _, .pinf => .pinf
  | .fin _, .ninf => .ninf
  | .pinf, .fin _ => .pinf
  | .ninf, .fin _ => .ninf
  | .pinf, .pinf => .pinf
  | .ninf, .ninf => .ninf
  | .pinf, .ninf => .nan
  | .ninf, .pinf => .nan

/-- IEEE subtraction. -/
def Fsub (x y : F) : F := Fadd x (Fneg y)

/-- IEEE multiplication (`0 * ∞ = NaN`). -/
def Fmul : F → F → F
  | .nan, _ => .nan
  | _, .nan => .nan
  | .fin a, .fin b => .fin (a * b)
  | .fin a, .pinf => if a = 0 then .nan else if 0 < a then .pinf else .ninf
  | .fin a, .ninf => if a = 0 then .nan else if 0 < a then .ninf else .pinf
  | .pinf, .fin b => if b = 0 then .nan else if 0 < b then .pinf else .ninf
  | .ninf, .fin b => if b = 0 then .nan else if 0 < b then .ninf else .pinf
  | .pinf, .pinf => .pinf
  | .pinf, .ninf => .ninf
  | .ninf, .pinf => .ninf
  | .ninf, .ninf => .pinf

/-- IEEE division (`x/0 = ±∞` for `x ≠ 0`, `0/0 = NaN`, `x/∞ = 0`;
the signed-zero distinction is collapsed, so `x / 0` takes the sign
of `x`, and a finite value divided by an infinity is plain `0`). -/
def Fdiv : F → F → F
  | .nan, _ => .nan
  | _, .nan => .nan
  | .fin a, .fin b =>
      if b = 0 then (if a = 0 then .nan else if 0 < a then .pinf else .ninf)
      else .fin (a / b)
  | .fin _, .pinf => .fin 0
  | .fin _, .ninf => .fin 0
  | .pinf, .fin b => if 0 ≤ b then .pinf else .ninf
  | .ninf, .fin b => if 0 ≤ b then .ninf else .pinf
  | .pinf, .pinf => .nan
  | .pinf, .ninf => .nan
  | .ninf, .pinf => .nan
  | .ninf, .ninf => .nan

/-- IEEE strict comparison: any comparison with NaN is false. -/
def Flt : F → F → Bool
  | .nan, _ => false
  | _, .nan => false
  | .fin a, .fin b => decide (a < b)
  | .fin _, .pinf => true
  | .fin _, .ninf => false
  | .pinf, .fin _ => false
  | .ninf, .fin _ => true
  | .pinf, .pinf => false
  | .ninf, .ninf => false
  | .ninf, .pinf => true
  | .pinf, .ninf => false

/-- IEEE non-strict comparison: any comparison with NaN is false. -/
def Fle : F → F → Bool
  | .nan, _ => false
  | _, .nan => false
  | .fin a, .fin b => decide (a ≤ b)
  | .fin _, .pinf => true
  | .fin _, .ninf => false
  | .pinf, .fin _ => false
  | .ninf, .fin _ => true
  | .pinf, .pinf => true
  | .ninf, .ninf => true
  | .ninf, .pinf => true
  | .pinf, .ninf => false

/-- Rust `f64::is_nan`. -/
def FisNan : F → Bool
  | .nan => true
  | _ => false

/-- IEEE absolute value. -/
def Fabs : F → F
  | .fin a => .fin |a|
  | .pinf => .pinf
  | .ninf => .pinf
  | .nan => .nan

/-- Rust `f64::min`: if one argument is NaN the other is returned. -/
def Fmin (x y : F) : F :=
  if FisNan x then y else if FisNan y then x else if Fle x y then x else y

/-- Integer power (`f64::powi` / polars `pow` by an integer literal):
`x^0 = 1` for every `x` (IEEE `pow` special case), NaN propagates for
positive exponents, infinities keep the sign parity. -/
def FpowNat (x : F) (n : Nat) : F :=
  if n = 0 then .fin 1 else
    match x with
    | .fin q => .fin (q ^ n)
    | .pinf => .pinf
    | .ninf => if n % 2 = 1 then .ninf else .pinf
    | .nan => .nan

/-- The transcendental `f64` primitives used by the solver, abstracted:
`rpow x y` stands for `x.powf(y)`, `log10` for `f64::log10`, `sqrt`
for `f64::sqrt`. -/
structure RealOps where
  rpow : F → F → F
  log10 : F → F
  sqrt : F → F

/-- A concrete `RealOps` instantiation for closed evaluations.  It
agrees with IEEE 754 on the single case those evaluations force:
`pow x 1 = x` exactly, for every `x` (IEEE 754 `pow` special case).
All other cases are left undefined (`nan`). -/
def opsPow1 : RealOps where
  rpow x y := if y = .fin 1 then x else .nan
  log10 _ := .nan
  sqrt _ := .nan

/-- Row-wise model of a polars `DataFrame`: named columns, rows in
positional order, each row the list of its cells in column order. -/
structure Frame (α : Type) where
  names : List String
  rows : List (List α)
deriving DecidableEq, Repr

/-- Rectangularity: every row has one cell per column. -/
def Frame.wf {α : Type} (df : Frame α) : Prop :=
  ∀ r ∈ df.rows, r.length = df.names.length

/-- Column names (crate `conic-core`, `kernel/config.rs` defaults and
the `COL_FS_ROL` / `COL_QT_ROL` literals of `math/basic.rs`). -/
def COL_DEPTH : String := "depth"

def COL_QC : String := "qc"

def COL_FS : String := "fs"

def COL_U2 : String := "u2"

def COL_U0 : String := "u0"

def COL_SIGV_TOT : String := "sigma_v_tot"

def COL_SIGV_EFF : String := "sigma_v_eff"

def COL_QT : String := "qt"

def COL_FR : String := "Fr"

def COL_BQ : String := "Bq"

def COL_N : String := "n_exponent"

def COL_QTN : String := "Qtn"

def COL_IC : String := "Ic"

def COL_CD : String := "Cd"

def COL_IB : String := "Ib"

def COL_FS_ROL : String := "fs [rolling]"

def COL_QT_ROL : String := "qt [rolling]"

/-- Look a column up by name (polars `DataFrame::column` followed by
`.f64()`); cell access defaults to NaN, mirroring the
`.get(i).unwrap_or(f64::NAN)` reads of the solver. -/
def colD (df : Frame F) (name : String) : Option (List F) :=
  (df.names.findIdx? (· == name)).map
    (fun j => df.rows.map (fun r => r.getD j F.nan))

/-- Horizontal sentinel match of `frame/clean.rs`: a row matches when
ANY of its cells equals ANY value of the indicator list
(`any_horizontal` of per-column `is_in` masks). -/
def rowMatches {α : Type} [DecidableEq α] (indicators : List α) (r : List α) : Bool :=
  r.any (fun x => indicators.any (fun u => decide (x = u)))

/-- `frame/clean.rs::remove_rows`: drop every row in which any cell
equals any indicator value (`all_horizontal` of negated `is_in`
masks, then `filter`). -/
def remove_rows {α : Type} [DecidableEq α] (df : Frame α) (indicators : List α) : Frame α :=
  ⟨df.names, df.rows.filter (fun r => !(rowMatches indicators r))⟩

/-- `frame/clean.rs::replace_rows`: in every row in which any cell
equals any indicator value, overwrite every cell whose column is not
`COL_DEPTH` with `replace_value`; other rows pass through unchanged. -/
def replace_rows {α : Type} [DecidableEq α] (df : Frame α) (indicators : List α)
    (replace_value : α) : Frame α :=
  ⟨df.names,
   df.rows.map (fun r =>
     if rowMatches indicators r then
       List.zipWith (fun nm x => if nm == COL_DEPTH then x else replace_value) df.names r
     else r)⟩

/-- A small concrete two-column table over exact rationals, used by
closed instantiations of the cleaning theorems. -/
def exFrameQ : Frame ℚ := ⟨[COL_DEPTH, COL_QC], [[1, -9999], [2, 5]]⟩

/-- Sum of a float series (NaN-propagating, as polars sums floats). -/
def Fsum (l : List F) : F := l.foldl Fadd (F.fin 0)

/-- `math/basic.rs::calc_n`:
`(0.381 * ic + 0.05 * (sigv_eff / p_ref) - 0.15).min(1.0)`. -/
def calc_n (pref ic sigv_eff : F) : F :=
  let ic_term := Fmul (F.fin (381 / 1000)) ic
  let sigv_eff_term := Fmul (F.fin (5 / 100)) (Fdiv sigv_eff pref)
  Fmin (Fsub (Fadd ic_term sigv_eff_term) (F.fin (15 / 100))) (F.fin 1)

/-- `math/basic.rs::calc_qtn`:
`((qt - sigv_tot) / p_ref) * (p_ref / sigv_eff).powf(n)`. -/
def calc_qtn (ops : RealOps) (pref n qt sigv_eff sigv_tot : F) : F :=
  let cn := ops.rpow (Fdiv pref sigv_eff) n
  let qt_term := Fdiv (Fsub qt sigv_tot) pref
  Fmul qt_term cn

/-- `math/basic.rs::calc_ic`:
`sqrt((log10 fr + 1.22)^2 + (3.47 - log10 qtn)^2)`. -/
def calc_ic (ops : RealOps) (qtn fr : F) : F :=
  let fr_term := Fadd (ops.log10 fr) (F.fin (122 / 100))
  let qtn_term := Fsub (F.fin (347 / 100)) (ops.log10 qtn)
  ops.sqrt (Fadd (FpowNat fr_term 2) (FpowNat qtn_term 2))

/-- One solver iteration: the composite of `calc_qtn`, `calc_ic` and
`calc_n` applied to the current exponent. -/
def nstep (ops : RealOps) (pref qt sigv_eff sigv_tot fr : F) (n : F) : F :=
  calc_n pref (calc_ic ops (calc_qtn ops pref n qt sigv_eff sigv_tot) fr) sigv_eff

/-- The iteration loop of `add_behavior_cols`
(`for _ in 0..(max_iter - 1)` with the look-ahead convergence test):
takes the remaining fuel, the current exponent and the current
convergence flag, and returns the final accepted exponent, the final
flag and the number of iterations executed. -/
def behaviorLoop (ops : RealOps) (pref tol qt sigv_eff sigv_tot fr : F) :
    Nat → F → Bool → F × Bool × Nat
  | 0, n_curr, convg => (n_curr, convg, 0)
  | fuel + 1, n_curr, _convg =>
    let qtn_curr := calc_qtn ops pref n_curr qt sigv_eff sigv_tot
    let ic_curr := calc_ic ops qtn_curr fr
    let n_next := calc_n pref ic_curr sigv_eff
    let convg := Fle (Fabs (Fsub n_next n_curr)) tol
    if convg then (n_next, convg, 1)
    else
      let r := behaviorLoop ops pref tol qt sigv_eff sigv_tot fr fuel n_next convg
      (r.1, r.2.1, r.2.2 + 1)

/-- The per-row body of `add_behavior_cols` given the loop fuel
(`max_iter - 1`): skip rows with `Fr < 0` or `Fr` NaN, otherwise run
the loop from `n = 1.0` with the flag initialized to not-converged,
then recompute `Qtn` and `Ic` from the last accepted exponent.
Returns `(n_exponent, Qtn, Ic, convergence_flag)`; the flag is `none`
for skipped rows (the not-applicable state). -/
def behaviorRow (ops : RealOps) (pref : F) (fuel : Nat)
    (tol qt sigv_eff sigv_tot fr : F) : F × F × F × Option Bool :=
  if Flt fr (F.fin 0) || FisNan fr then (F.nan, F.nan, F.nan, none)
  else
    let r := behaviorLoop ops pref tol qt sigv_eff sigv_tot fr fuel (F.fin 1) false
    let qtn_i := calc_qtn ops pref r.1 qt sigv_eff sigv_tot
    let ic_i := calc_ic ops qtn_i fr
    (r.1, qtn_i, ic_i, some r.2.1)

/-- Debug-build semantics of Rust `usize` subtraction: underflow is a
panic, modelled as `none`. -/
def usizeSub (a b : Nat) : Option Nat :=
  if b ≤ a then some (a - b) else none

/-- The per-row body of `add_behavior_cols` including the
`max_iter - 1` loop-bound computation, which is only reached on
non-skipped rows and panics (`none`) when `max_iter = 0`. -/
def behaviorRowChecked (ops : RealOps) (pref : F) (max_iter : Nat)
    (tol qt sigv_eff sigv_tot fr : F) : Option (F × F × F × Option Bool) :=
  if Flt fr (F.fin 0) || FisNan fr then some (F.nan, F.nan, F.nan, none)
  else
    match usizeSub max_iter 1 with
    | none => none
    | some fuel => some (behaviorRow ops pref fuel tol qt sigv_eff sigv_tot fr)

/-- Specification-side exponent sequence: `n_0 = 1.0` and
`n_(k+1) = nstep n_k`. -/
def nseq (ops : RealOps) (pref qt sigv_eff sigv_tot fr : F) (k : Nat) : F :=
  (nstep ops pref qt sigv_eff sigv_tot fr)^[k] (F.fin 1)

/-- Specification-side convergence test at step `k`: the candidate
next value satisfies `|n_(k+1) - n_k| <= tolerance`. -/
def convAt (ops : RealOps) (pref tol qt sigv_eff sigv_tot fr : F) (k : Nat) : Bool :=
  Fle (Fabs (Fsub (nseq ops pref qt sigv_eff sigv_tot fr (k + 1))
    (nseq ops pref qt sigv_eff sigv_tot fr k))) tol

/-- The first step index `< K` at which the convergence test holds. -/
def firstConv (ops : RealOps) (pref tol qt sigv_eff sigv_tot fr : F) (K : Nat) :
    Option Nat :=
  (List.range K).find? (convAt ops pref tol qt sigv_eff sigv_tot fr)

/-- Closed-form specification of the solver row: iterate from
`n_0 = 1.0` for at most `K` steps, accept `n_(k+1)` at the first `k`
passing the convergence test (else `n_K` on exhaustion), recompute
`Qtn` and `Ic` from the accepted exponent, and flag convergence by
whether some step `< K` converged. -/
def solverSpec (ops : RealOps) (pref tol qt sigv_eff sigv_tot fr : F) (K : Nat) :
    F × F × F × Option Bool :=
  let nfin :=
    match firstConv ops pref tol qt sigv_eff sigv_tot fr K with
    | some k => nseq ops pref qt sigv_eff sigv_tot fr (k + 1)
    | none => nseq ops pref qt sigv_eff sigv_tot fr K
  let qtn := calc_qtn ops pref nfin qt sigv_eff sigv_tot
  (nfin, qtn, calc_ic ops qtn fr,
   some (firstConv ops pref tol qt sigv_eff sigv_tot fr K).isSome)

/-- Centered rolling mean of window `w` with `min_periods = w`: rows
without a full centered window get NaN (`fill_null(NAN)` after polars
`rolling_mean`). -/
def rollingMean (w : Nat) (xs : List F) : List F :=
  (List.range xs.length).map (fun (i : Nat) =>
    if w / 2 ≤ i ∧ i + w / 2 < xs.length then
      Fdiv (Fsum ((xs.drop (i - w / 2)).take w)) (F.fin (w : ℚ))
    else F.nan)

/-- `math/basic.rs::add_stress_cols`: derive total/effective vertical
stress, corrected resistance `qt`, the (optionally) smoothed `fs` and
`qt` columns, and the normalized ratios `Fr` and `Bq`.  With
`rolling = 1` the smoothed columns alias the raw ones (appended in the
order `qt [rolling]`, `fs [rolling]`); otherwise they are centered
rolling means (appended in the order `fs [rolling]`, `qt [rolling]`). -/
def add_stress_cols (df : Frame F) (a gamma : F) (rolling : Nat) :
    Except String (Frame F) :=
  match colD df COL_DEPTH, colD df COL_U0, colD df COL_QC,
        colD df COL_U2, colD df COL_FS with
  | some depth, some u0, some qc, some u2, some fs =>
    let sigv_tot := depth.map (fun d => Fmul gamma d)
    let sigv_eff := List.zipWith Fsub sigv_tot u0
    let qt := List.zipWith
      (fun q u => Fadd q (Fdiv (Fmul u (Fsub (F.fin 1) a)) (F.fin 1000))) qc u2
    let qt_rol := if rolling = 1 then qt else rollingMean rolling qt
    let fs_rol := if rolling = 1 then fs else rollingMean rolling fs
    let den := List.zipWith (fun qr st => Fsub (Fmul qr (F.fin 1000)) st) qt_rol sigv_tot
    let fr := List.zipWith (fun f d => Fmul (Fdiv f d) (F.fin 100)) fs_rol den
    let bq := List.zipWith (fun (p : F × F) d => Fdiv (Fsub p.1 p.2) d) (u2.zip u0) den
    .ok ⟨df.names ++ [COL_SIGV_TOT, COL_SIGV_EFF, COL_QT] ++
          (if rolling = 1 then [COL_QT_ROL, COL_FS_ROL] else [COL_FS_ROL, COL_QT_ROL]) ++
          [COL_FR, COL_BQ],
        (List.range df.rows.length).map (fun (i : Nat) =>
          df.rows.getD i [] ++
          [sigv_tot.getD i F.nan, sigv_eff.getD i F.nan, qt.getD i F.nan] ++
          (if rolling = 1 then [qt_rol.getD i F.nan, fs_rol.getD i F.nan]
           else [fs_rol.getD i F.nan, qt_rol.getD i F.nan]) ++
          [fr.getD i F.nan, bq.getD i F.nan])⟩
  | _, _, _, _, _ => .error "add_stress_cols: missing input column"

/-- `math/basic.rs::add_behavior_cols`: solve the behavior exponent
per row — reading `sigma_v_tot`, `sigma_v_eff`, the SMOOTHED
`qt [rolling]` column (converted from MPa to kPa by `* 1000.0`) and
`Fr` — then append the `n_exponent`, `Qtn`, `Ic`, `Cd` and `Ib`
columns.  The boolean `convergence_flag` column is returned as a
separate list (`none` is the not-applicable state).  A `max_iter` of
`0` underflows the `max_iter - 1` loop bound on the first non-skipped
row (a Rust debug-build panic, modelled as the overflow error).
`behaviorRowAt` is the checked row solver applied to the `i`-th cells
of the four input columns, with the `qt [rolling]` cell `* 1000.0`. -/
def behaviorRowAt (ops : RealOps) (pref : F) (max_iter : Nat) (tol : F)
    (st se qtr fr : List F) (i : Nat) : Option (F × F × F × Option Bool) :=
  behaviorRowChecked ops pref max_iter tol
    (Fmul (qtr.getD i F.nan) (F.fin 1000))
    (se.getD i F.nan) (st.getD i F.nan) (fr.getD i F.nan)

/-- The frame-level solver: validate the input columns, run the checked
row solver on every row, and append the derived columns (failing with
the overflow panic if any row underflows the loop bound). -/
def add_behavior_cols (ops : RealOps) (pref : F) (df : Frame F)
    (max_iter : Nat) (tol : F) : Except String (Frame F × List (Option Bool)) :=
  match colD df COL_SIGV_TOT, colD df COL_SIGV_EFF,
        colD df COL_QT_ROL, colD df COL_FR with
  | some st, some se, some qtr, some fr =>
    if (List.range df.rows.length).all
        (fun i => (behaviorRowAt ops pref max_iter tol st se qtr fr i).isSome) then
      .ok (⟨df.names ++ [COL_N, COL_QTN, COL_IC, COL_CD, COL_IB],
            (List.range df.rows.length).map (fun (i : Nat) =>
              let o := (behaviorRowAt ops pref max_iter tol st se qtr fr i).getD
                (F.nan, F.nan, F.nan, none)
              let fr_i := fr.getD i F.nan
              df.rows.getD i [] ++
              [o.1, o.2.1, o.2.2.1,
               Fmul (Fsub o.2.1 (F.fin 11))
                 (FpowNat (Fadd (F.fin 1) (Fmul (F.fin (6 / 100)) fr_i)) 17),
               Fdiv (Fmul (F.fin 100) (Fadd o.2.1 (F.fin 10)))
                 (Fadd (F.fin 70) (Fmul o.2.1 fr_i))])⟩,
           (List.range df.rows.length).map (fun (i : Nat) =>
             ((behaviorRowAt ops pref max_iter tol st se qtr fr i).getD
               (F.nan, F.nan, F.nan, none)).2.2.2))
    else .error "attempt to subtract with overflow"
  | _, _, _, _ => .error "add_behavior_cols: missing input column"

/-- Specification-side `Qtn` formula (the spec's words): given a `qt`
value, `Qtn = ((qt - sigma_v_tot) / P_ref) * (P_ref / sigma_v_eff)^n`. -/
def qtnFormula (ops : RealOps) (pref qt sigv_tot sigv_eff n : F) : F :=
  Fmul (Fdiv (Fsub qt sigv_tot) pref) (ops.rpow (Fdiv pref sigv_eff) n)

/-- Concrete 3-row raw input table for the smoothed-`Qtn`
counterexample: `depth = [1,2,3]`, `qc = [1,1,4]` (so the centered
window-3 mean of `qt` at row 1 is `2` while `qt` itself is `1`),
`fs = u2 = u0 = 0`. -/
def dfC4 : Frame F :=
  ⟨[COL_DEPTH, COL_QC, COL_FS, COL_U2, COL_U0],
   [[F.fin 1, F.fin 1, F.fin 0, F.fin 0, F.fin 0],
    [F.fin 2, F.fin 1, F.fin 0, F.fin 0, F.fin 0],
    [F.fin 3, F.fin 4, F.fin 0, F.fin 0, F.fin 0]]⟩

/-- The `add_stress_cols` output on `dfC4` with `area_ratio = 1`,
`gamma_soil = 10` and window `3`: the edge rows get NaN smoothed
values, the middle row gets `qt [rolling] = 2` while `qt = 1`. -/
def dfC4stress : Frame F :=
  ⟨[COL_DEPTH, COL_QC, COL_FS, COL_U2, COL_U0,
    COL_SIGV_TOT, COL_SIGV_EFF, COL_QT, COL_FS_ROL, COL_QT_ROL, COL_FR, COL_BQ],
   [[F.fin 1, F.fin 1, F.fin 0, F.fin 0, F.fin 0,
     F.fin 10, F.fin 10, F.fin 1, F.nan, F.nan, F.nan, F.nan],
    [F.fin 2, F.fin 1, F.fin 0, F.fin 0, F.fin 0,
     F.fin 20, F.fin 20, F.fin 1, F.fin 0, F.fin 2, F.fin 0, F.fin 0],
    [F.fin 3, F.fin 4, F.fin 0, F.fin 0, F.fin 0,
     F.fin 30, F.fin 30, F.fin 4, F.nan, F.nan, F.nan, F.nan]]⟩

/-- The `add_behavior_cols` output frame on `dfC4stress` with
`max_iter = 1`: rows 0 and 2 are skipped (NaN `Fr`); row 1 keeps
`n = 1` (zero loop iterations) and gets `Qtn = 99` computed from the
SMOOTHED `qt [rolling] = 2` (i.e. `(2*1000 - 20)/100 * (100/20)^1`),
not from the raw `qt = 1`. -/
def dfC4out : Frame F :=
  ⟨[COL_DEPTH, COL_QC, COL_FS, COL_U2, COL_U0,
    COL_SIGV_TOT, COL_SIGV_EFF, COL_QT, COL_FS_ROL, COL_QT_ROL, COL_FR, COL_BQ,
    COL_N, COL_QTN, COL_IC, COL_CD, COL_IB],
   [[F.fin 1, F.fin 1, F.fin 0, F.fin 0, F.fin 0,
     F.fin 10, F.fin 10, F.fin 1, F.nan, F.nan, F.nan, F.nan,
     F.nan, F.nan, F.nan, F.nan, F.nan],
    [F.fin 2, F.fin 1, F.fin 0, F.fin 0, F.fin 0,
     F.fin 20, F.fin 20, F.fin 1, F.fin 0, F.fin 2, F.fin 0, F.fin 0,
     F.fin 1, F.fin 99, F.nan, F.fin 88, F.fin (1090 / 7)],
    [F.fin 3, F.fin 4, F.fin 0, F.fin 0, F.fin 0,
     F.fin 30, F.fin 30, F.fin 4, F.nan, F.nan, F.nan, F.nan,
     F.nan, F.nan, F.nan, F.nan, F.nan]]⟩

/-- The convergence flags on `dfC4stress`: not-applicable for the two
skipped rows, not-converged for row 1. -/
def flagsC4 : List (Option Bool) := [none, some false, none]

/-- A one-row raw input table for the `W = 1` aliasing instantiation. -/
def dfW1 : Frame F :=
  ⟨[COL_DEPTH, COL_QC, COL_FS, COL_U2, COL_U0],
   [[F.fin 1, F.fin 1, F.fin 0, F.fin 0, F.fin 0]]⟩

/-- The `add_stress_cols` output on `dfW1` with window `1`: the
`qt [rolling]` cell equals the `qt` cell. -/
def dfW1out : Frame F :=
  ⟨[COL_DEPTH, COL_QC, COL_FS, COL_U2, COL_U0,
    COL_SIGV_TOT, COL_SIGV_EFF, COL_QT, COL_QT_ROL, COL_FS_ROL, COL_FR, COL_BQ],
   [[F.fin 1, F.fin 1, F.fin 0, F.fin 0, F.fin 0,
     F.fin 10, F.fin 10, F.fin 1, F.fin 1, F.fin 0, F.fin 0, F.fin 0]]⟩

/-- A one-row all-NaN raw input table (NaN propagates through every
derived column, so the stress stage on it is pure data plumbing). -/
def dfS : Frame F :=
  ⟨[COL_DEPTH, COL_QC, COL_FS, COL_U2, COL_U0],
   [[F.nan, F.nan, F.nan, F.nan, F.nan]]⟩

/-- The `add_stress_cols` output on `dfS` with window `1` and NaN
parameters: the input row extended by seven NaN derived cells. -/
def dfSout : Frame F :=
  ⟨[COL_DEPTH, COL_QC, COL_FS, COL_U2, COL_U0,
    COL_SIGV_TOT, COL_SIGV_EFF, COL_QT, COL_QT_ROL, COL_FS_ROL, COL_FR, COL_BQ],
   [[F.nan, F.nan, F.nan, F.nan, F.nan,
     F.nan, F.nan, F.nan, F.nan, F.nan, F.nan, F.nan]]⟩

/-- A one-row solver input table whose row is skipped (`Fr` NaN). -/
def dfB : Frame F :=
  ⟨[COL_SIGV_TOT, COL_SIGV_EFF, COL_QT_ROL, COL_FR],
   [[F.fin 20, F.fin 20, F.fin 2, F.nan]]⟩

/-- The `add_behavior_cols` output frame on `dfB` with `max_iter = 1`:
the skipped input row extended by five NaN derived cells. -/
def dfBout : Frame F :=
  ⟨[COL_SIGV_TOT, COL_SIGV_EFF, COL_QT_ROL, COL_FR,
    COL_N, COL_QTN, COL_IC, COL_CD, COL_IB],
   [[F.fin 20, F.fin 20, F.fin 2, F.nan,
     F.nan, F.nan, F.nan, F.nan, F.nan]]⟩

/-- Rust `f64::round`: round half away from zero. -/
def rustRound (q : ℚ) : ℤ :=
  if 0 ≤ q then ⌊q + 1 / 2⌋ else ⌈q - 1 / 2⌉

/-- The spacing normalization of `frame/fix.rs::adjust_depth`:
`(spacing * 1000.0).round() / 1000.0`, i.e. rounding to 3 decimal
places (infinities and NaN pass through `round` unchanged). -/
def Fround3 : F → F
  | .fin q => .fin ((rustRound (q * 1000) : ℚ) / 1000)
  | .pinf => .pinf
  | .ninf => .ninf
  | .nan => .nan

/-- The start-depth default of `adjust_depth`: the supplied value, or
the first value of the `depth` column. -/
def startOf (df : Frame F) (start_depth : Option F) : Except String F :=
  match start_depth with
  | some s => .ok s
  | none =>
    match colD df COL_DEPTH with
    | none => .error "Cannot adjust depth: missing depth column"
    | some c =>
      match c.head? with
      | some v => .ok v
      | none => .error "Cannot adjust depth: Depth column has no valid first value"

/-- The spacing default of `adjust_depth`: the supplied value, or the
mean of the successive differences of the `depth` column. -/
def spacingOf (df : Frame F) (spacing : Option F) : Except String F :=
  match spacing with
  | some s => .ok s
  | none =>
    match colD df COL_DEPTH with
    | none => .error "Cannot adjust depth: missing depth column"
    | some c =>
      let d := List.zipWith Fsub c.tail c
      if d.isEmpty then
        .error "Cannot adjust depth: All diff values are NaN when calculating automatic spacing"
      else .ok (Fdiv (Fsum d) (F.fin (d.length : ℚ)))

/-- Depth regeneration of `adjust_depth`: the depth column becomes the
arithmetic progression `start + i * spacing`; all other columns pass
through unchanged. -/
def regenDepth (df : Frame F) (start sp3 : F) : Frame F :=
  ⟨df.names,
   (List.range df.rows.length).map (fun (i : Nat) =>
     List.zipWith (fun nm x =>
       if nm == COL_DEPTH then Fadd start (Fmul (F.fin (i : ℚ)) sp3) else x)
       df.names (df.rows.getD i []))⟩

/-- `frame/fix.rs::adjust_depth`: validate, resolve the start and
spacing defaults, round the spacing to 3 decimal places (this applies
to a supplied spacing as well), and regenerate the depth column. -/
def adjust_depth (df : Frame F) (start_depth spacing : Option F) :
    Except String (Frame F) :=
  if df.rows.length = 0 then
    .error "Cannot adjust depth: DataFrame is empty"
  else if df.rows.length == 1 && spacing.isNone then
    .error "Cannot adjust depth: DataFrame has only 1 row and spacing is None"
  else
    match startOf df start_depth with
    | .error e => .error e
    | .ok start =>
      match spacingOf df spacing with
      | .error e => .error e
      | .ok sp => .ok (regenDepth df start (Fround3 sp))

/-- Required input columns of `frame/read.rs::read_csv`. -/
def requiredColumns : List String := [COL_DEPTH, COL_QC, COL_FS, COL_U2]

/-- The missing-column check of `frame/read.rs::read_csv`: `find` the
FIRST required column that is not present; the schema error names that
column (the error message additionally shows the static list of all
required columns, not the missing ones). -/
def firstMissingRequired (present : List String) : Option String :=
  requiredColumns.find? (fun c => !(present.contains c))

/-- Modelled from the spec: the full list of missing required columns,
which the spec says the schema error reports. -/
def missingRequired (present : List String) : List String :=
  requiredColumns.filter (fun c => !(present.contains c))

/-- Positional access through `zipWith`. -/
theorem zipWith_getElem? {α β γ : Type} (f : α → β → γ) :
    ∀ (l : List α) (l' : List β) (i : Nat),
      (List.zipWith f l l')[i]? =
        match l[i]?, l'[i]? with
        | some a, some b => some (f a b)
        | _, _ => none := by
  intro l
  induction l with
  | nil => intro l' i; cases l' <;> cases i <;> rfl
  | cons a l ih =>
      intro l' i
      cases l' with
      | nil => cases i <;> simp
      | cons b l' =>
          cases i with
          | zero => simp
          | succ i => simpa using ih l' i

/-- Composing two `zipWith`s over the same left list. -/
theorem zipWith_zipWith_same {α β γ δ : Type} (f : α → γ → δ) (g : α → β → γ) :
    ∀ (l : List α) (l' : List β),
      List.zipWith f l (List.zipWith g l l') = List.zipWith (fun a b => f a (g a b)) l l' := by
  intro l
  induction l with
  | nil => intro l'; rfl
  | cons a l ih =>
      intro l'
      cases l' with
      | nil => rfl
      | cons b l' => simp [List.zipWith, ih]

/-- C6: for every table `t` and indicator set `I`, `remove_rows t I` is a
sub-table of `t`: the kept rows form a sublist of the original rows (so
the row count is at most the original and the relative order of kept
rows is preserved), and no row of the result has any cell equal to any
value of `I`. -/
theorem remove_rows_subtable {α : Type} [DecidableEq α] (df : Frame α) (I : List α) :
    (remove_rows df I).names = df.names ∧
    (remove_rows df I).rows.Sublist df.rows ∧
    (remove_rows df I).rows.length ≤ df.rows.length ∧
    ∀ r ∈ (remove_rows df I).rows, ∀ x ∈ r, x ∉ I := by
  refine ⟨rfl, List.filter_sublist _, (List.filter_sublist _).length_le, ?_⟩
  intro r hr x hx hxI
  have hmask := (List.mem_filter.mp hr).2
  have hmatch : rowMatches I r = true := by
    simp only [rowMatches, List.any_eq_true, decide_eq_true_eq]
    exact ⟨x, hx, x, hxI, rfl⟩
  rw [hmatch] at hmask
  exact Bool.false_ne_true hmask

/-- Closed instantiation of `remove_rows_subtable` on `exFrameQ` with
indicator set `{-9999}`: the first row matches and is dropped, the
second row `[2, 5]` is kept and contains no indicator value. -/
theorem remove_rows_subtable_witness :
    (remove_rows exFrameQ [(-9999 : ℚ)]).names = exFrameQ.names ∧
    (remove_rows exFrameQ [(-9999 : ℚ)]).rows.length ≤ exFrameQ.rows.length ∧
    (5 : ℚ) ∉ [(-9999 : ℚ)] := by
  have h := remove_rows_subtable exFrameQ [(-9999 : ℚ)]
  exact ⟨h.1, h.2.2.1, h.2.2.2 [2, 5] (by decide) 5 (by decide)⟩

/-- C5: for every rectangular table `t`, indicator set `I` and
replacement value `v ∉ I`, `replace_rows t I v` preserves the row count
and the `depth` column exactly; every row in which some cell equals
some value of `I` has all non-depth cells set to `v`; every row with no
matching cell is left unchanged. -/
theorem replace_rows_spec {α : Type} [DecidableEq α] (df : Frame α) (I : List α)
    (v : α) (hwf : df.wf) (hv : v ∉ I) :
    (replace_rows df I v).rows.length = df.rows.length ∧
    (∀ (i j : Nat) (r r' : List α),
      df.rows[i]? = some r → (replace_rows df I v).rows[i]? = some r' →
      df.names[j]? = some COL_DEPTH → r'[j]? = r[j]?) ∧
    (∀ (i : Nat) (r r' : List α),
      df.rows[i]? = some r → (replace_rows df I v).rows[i]? = some r' →
      rowMatches I r = true →
      ∀ (j : Nat) (nm : String), df.names[j]? = some nm → nm ≠ COL_DEPTH →
        r'[j]? = some v) ∧
    (∀ (i : Nat) (r r' : List α),
      df.rows[i]? = some r → (replace_rows df I v).rows[i]? = some r' →
      rowMatches I r = false → r' = r) := by
  have hrow : ∀ (i : Nat) (r : List α), df.rows[i]? = some r →
      (replace_rows df I v).rows[i]? = some
        (if rowMatches I r then
          List.zipWith (fun nm x => if nm == COL_DEPTH then x else v) df.names r
        else r) := by
    intro i r hr
    simp [replace_rows, List.getElem?_map, hr]
  have hcell : ∀ (i : Nat) (r : List α) (j : Nat) (nm : String),
      df.rows[i]? = some r → df.names[j]? = some nm →
      ∃ x, r[j]? = some x := by
    intro i r j nm hr hn
    have hj : j < df.names.length := (List.getElem?_eq_some.mp hn).1
    have hlen : r.length = df.names.length := by
      obtain ⟨hi, rfl⟩ := List.getElem?_eq_some.mp hr
      exact hwf _ (List.getElem_mem ..)
    have hjr : j < r.length := by omega
    exact ⟨r.get ⟨j, hjr⟩, by rw [List.getElem?_eq_getElem hjr]; rfl⟩
  refine ⟨by simp [replace_rows], ?_, ?_, ?_⟩
  · intro i j r r' hr hr' hdj
    have h2 := (hrow i r hr).symm.trans hr'
    by_cases hm : rowMatches I r
    · rw [if_pos hm] at h2
      obtain ⟨x, hx⟩ := hcell i r j COL_DEPTH hr hdj
      obtain rfl := Option.some.inj h2
      rw [zipWith_getElem? _ df.names r j, hdj, hx]
      simp
    · rw [if_neg hm] at h2
      obtain rfl := Option.some.inj h2
      rfl
  · intro i r r' hr hr' hm j nm hnj hne
    have h2 := (hrow i r hr).symm.trans hr'
    rw [if_pos hm] at h2
    obtain rfl := Option.some.inj h2
    obtain ⟨x, hx⟩ := hcell i r j nm hr hnj
    rw [zipWith_getElem? _ df.names r j, hnj, hx]
    simp [hne]
  · intro i r r' hr hr' hm
    have h2 := (hrow i r hr).symm.trans hr'
    rw [if_neg (by simp [hm])] at h2
    exact (Option.some.inj h2).symm

/-- Closed instantiation of `replace_rows_spec` on `exFrameQ` with
indicator set `{-9999}` and replacement `0`: row count is preserved,
the first row matches and gets its non-depth cell set to `0` while its
depth cell is kept, and the second row passes through unchanged. -/
theorem replace_rows_spec_witness :
    (replace_rows exFrameQ [(-9999 : ℚ)] 0).rows.length = exFrameQ.rows.length ∧
    ([(1 : ℚ), 0] : List ℚ)[0]? = ([(1 : ℚ), -9999] : List ℚ)[0]? ∧
    ([(1 : ℚ), 0] : List ℚ)[1]? = some (0 : ℚ) ∧
    ([(2 : ℚ), 5] : List ℚ) = [(2 : ℚ), 5] := by
  have h := replace_rows_spec exFrameQ [(-9999 : ℚ)] 0
    (by unfold Frame.wf; decide) (by decide)
  refine ⟨h.1, ?_, ?_, ?_⟩
  · exact h.2.1 0 0 [1, -9999] [1, 0] (by decide) (by decide) (by decide)
  · exact h.2.2.1 0 [1, -9999] [1, 0] (by decide) (by decide) (by decide) 1 COL_QC
      (by decide) (by decide)
  · exact h.2.2.2 1 [2, 5] [2, 5] (by decide) (by decide) (by decide)

/-- C9: for every table `t`, indicator set `I` and replacement value
`v ∉ I`, `replace_rows` is idempotent. -/
theorem replace_rows_idem {α : Type} [DecidableEq α] (df : Frame α) (I : List α)
    (v : α) (hv : v ∉ I) :
    replace_rows (replace_rows df I v) I v = replace_rows df I v := by
  simp only [replace_rows, List.map_map]
  refine congrArg (Frame.mk df.names) (List.map_congr_left ?_)
  intro r hr
  simp only [Function.comp]
  by_cases hm : rowMatches I r
  · rw [if_pos hm]
    by_cases hm2 : rowMatches I
        (List.zipWith (fun nm x => if nm == COL_DEPTH then x else v) df.names r)
    · rw [if_pos hm2, zipWith_zipWith_same]
      have hfun : (fun (a : String) (b : α) =>
          (fun nm x => if nm == COL_DEPTH then x else v) a
            ((fun nm x => if nm == COL_DEPTH then x else v) a b)) =
          (fun nm x => if nm == COL_DEPTH then x else v) := by
        funext a b
        cases h : a == COL_DEPTH <;> simp [h]
      rw [hfun]
    · rw [if_neg hm2]
  · rw [if_neg hm, if_neg hm]

/-- Closed instantiation of `replace_rows_idem` on `exFrameQ` with
indicator set `{-9999}` and replacement `0 ∉ {-9999}`. -/
theorem replace_rows_idem_witness :
    replace_rows (replace_rows exFrameQ [(-9999 : ℚ)] 0) [(-9999 : ℚ)] 0 =
      replace_rows exFrameQ [(-9999 : ℚ)] 0 :=
  replace_rows_idem exFrameQ [(-9999 : ℚ)] 0 (by decide)

/-- The first element found by `find?` is the head of the filtered list. -/
theorem find?_eq_head?_filter {α : Type} (p : α → Bool) :
    ∀ l : List α, l.find? p = (l.filter p).head? := by
  intro l
  induction l with
  | nil => rfl
  | cons a l ih =>
      cases h : p a
      · rw [List.find?_cons, h, List.filter_cons, h]
        simpa using ih
      · rw [List.find?_cons, h, List.filter_cons, h]
        simp

/-- C7 counterexample: on a two-row table with supplied `start = 0` and
supplied `spacing = 0.1234`, `adjust_depth` produces `depth[1] = 0.123`
(the supplied spacing is rounded to 3 decimal places before use), not
`start + 1 * 0.1234` as the claim states. -/
theorem adjust_depth_counterexample :
    adjust_depth (⟨[COL_DEPTH], [[F.fin 0], [F.fin 0]]⟩ : Frame F)
        (some (F.fin 0)) (some (F.fin (617 / 5000))) =
      .ok (⟨[COL_DEPTH], [[F.fin 0], [F.fin (123 / 1000)]]⟩ : Frame F) ∧
    F.fin (123 / 1000) ≠
      Fadd (F.fin 0) (Fmul (F.fin ((1 : Nat) : ℚ)) (F.fin (617 / 5000))) := by
  have h1 : rustRound ((617 : ℚ) / 5000 * 1000) = 123 := by
    unfold rustRound
    norm_num [Int.floor_eq_iff]
  have hround : Fround3 (F.fin (617 / 5000)) = F.fin (123 / 1000) := by
    simp only [Fround3, h1]
    norm_num
  constructor
  · unfold adjust_depth startOf spacingOf
    norm_num [hround, regenDepth, List.range_succ, List.getD, Fadd, Fmul]
  · simp only [Fmul, Fadd, ne_eq, F.fin.injEq]
    norm_num

/-- C7 as amended: for every rectangular table with at least two rows
and explicitly supplied start and spacing, `adjust_depth` succeeds and
returns a table whose depth cells satisfy
`depth[i] = start + i * round3(spacing)` — the supplied spacing is
first rounded to three decimal places — while all non-depth columns
pass through unchanged. -/
theorem adjust_depth_spec (df : Frame F) (start sp : F) (out : Frame F)
    (hwf : df.wf) (h2 : 2 ≤ df.rows.length)
    (hout : adjust_depth df (some start) (some sp) = .ok out) :
    out.names = df.names ∧
    out.rows.length = df.rows.length ∧
    ∀ (i j : Nat) (r r' : List F) (nm : String),
      df.rows[i]? = some r → out.rows[i]? = some r' → df.names[j]? = some nm →
      ((nm = COL_DEPTH →
          r'[j]? = some (Fadd start (Fmul (F.fin (i : ℚ)) (Fround3 sp)))) ∧
       (nm ≠ COL_DEPTH → r'[j]? = r[j]?)) := by
  have hn0 : ¬(df.rows.length = 0) := by omega
  simp only [adjust_depth, startOf, spacingOf, Option.isNone_some, Bool.and_false,
    if_neg hn0, if_false, Bool.false_eq_true] at hout
  obtain rfl := (Except.ok.inj hout).symm
  refine ⟨rfl, by simp only [regenDepth, List.length_map, List.length_range], ?_⟩
  intro i j r r' nm hr hr' hn
  have hi : i < df.rows.length := (List.getElem?_eq_some.mp hr).1
  have hr'' : (regenDepth df start (Fround3 sp)).rows[i]? = some
      (List.zipWith (fun nm x =>
        if nm == COL_DEPTH then Fadd start (Fmul (F.fin (i : ℚ)) (Fround3 sp)) else x)
        df.names (df.rows.getD i [])) := by
    simp only [regenDepth, List.getElem?_map, List.getElem?_range hi]
    rfl
  have hgd : df.rows.getD i [] = r := by
    simp [List.getD_eq_getElem?_getD, hr]
  rw [hgd] at hr''
  obtain rfl := Option.some.inj ((hr''.symm.trans hr'))
  have hj : j < df.names.length := (List.getElem?_eq_some.mp hn).1
  have hlen : r.length = df.names.length := by
    obtain ⟨hi2, rfl⟩ := List.getElem?_eq_some.mp hr
    exact hwf _ (List.getElem_mem ..)
  have hjr : j < r.length := by omega
  have hx : r[j]? = some (r.get ⟨j, hjr⟩) := by
    rw [List.getElem?_eq_getElem hjr]; rfl
  constructor
  · intro hdep
    subst hdep
    rw [zipWith_getElem? _ df.names r j, hn, hx]
    simp
  · intro hne
    rw [zipWith_getElem? _ df.names r j, hn, hx]
    simp [hne, hx]

/-- Closed instantiation of `adjust_depth_spec`: a two-row one-column
table with supplied start `1` and spacing `1/2` (which rounding to 3
decimals leaves unchanged) yields depth cells `1` and `3/2`. -/
theorem adjust_depth_spec_witness :
    ((⟨[COL_DEPTH], [[F.fin 1], [F.fin 3]]⟩ : Frame F).names =
      (⟨[COL_DEPTH], [[F.fin 5], [F.fin 7]]⟩ : Frame F).names) ∧
    ([F.fin 3] : List F)[0]? =
      some (Fadd (F.fin 1) (Fmul (F.fin ((1 : Nat) : ℚ)) (Fround3 (F.fin 2)))) := by
  have h2000 : rustRound ((2 : ℚ) * 1000) = 2000 := by
    unfold rustRound
    norm_num [Int.floor_eq_iff]
  have hround : Fround3 (F.fin 2) = F.fin 2 := by
    simp [Fround3, h2000]
    norm_num
  have hout : adjust_depth (⟨[COL_DEPTH], [[F.fin 5], [F.fin 7]]⟩ : Frame F)
      (some (F.fin 1)) (some (F.fin 2)) =
      .ok (⟨[COL_DEPTH], [[F.fin 1], [F.fin 3]]⟩ : Frame F) := by
    unfold adjust_depth startOf spacingOf
    norm_num [hround, regenDepth, List.range_succ, List.getD, Fadd, Fmul]
  have h := adjust_depth_spec (⟨[COL_DEPTH], [[F.fin 5], [F.fin 7]]⟩ : Frame F)
    (F.fin 1) (F.fin 2) (⟨[COL_DEPTH], [[F.fin 1], [F.fin 3]]⟩ : Frame F)
    (by unfold Frame.wf; decide) (by norm_num) hout
  exact ⟨h.1, (h.2.2 1 0 [F.fin 7] [F.fin 3] COL_DEPTH (by decide) (by decide)
    (by decide)).1 rfl⟩

/-- C3 counterexample: on a table whose header has none of the
required columns, the `read_csv` validation finds and names only the
first missing required column (`depth`); the spec demands the full
list, which also contains `qc`, `fs` and `u2`. -/
theorem read_csv_counterexample :
    firstMissingRequired ["foo"] = some COL_DEPTH ∧
    missingRequired ["foo"] = [COL_DEPTH, COL_QC, COL_FS, COL_U2] ∧
    (firstMissingRequired ["foo"]).toList ≠ missingRequired ["foo"] := by
  refine ⟨by decide, by decide, by decide⟩

/-- C3 as amended: when validation fails the schema error names
exactly the FIRST missing required column in the fixed order `depth`,
`qc`, `fs`, `u2` (the head of the list of missing columns), and it
reports no error exactly when no required column is missing. -/
theorem read_csv_reports_first_missing (present : List String) :
    firstMissingRequired present = (missingRequired present).head? ∧
    (firstMissingRequired present = none ↔ missingRequired present = []) := by
  constructor
  · exact find?_eq_head?_filter _ requiredColumns
  · unfold firstMissingRequired missingRequired
    rw [find?_eq_head?_filter]
    cases requiredColumns.filter (fun c => !(present.contains c)) <;> simp

/-- The loop executes at most `fuel` iterations. -/
theorem behaviorLoop_steps_le (ops : RealOps) (pref tol qt se st fr : F) :
    ∀ (fuel : Nat) (n : F) (c : Bool),
      (behaviorLoop ops pref tol qt se st fr fuel n c).2.2 ≤ fuel := by
  intro fuel
  induction fuel with
  | zero => intro n c; simp [behaviorLoop]
  | succ fuel ih =>
      intro n c
      rw [behaviorLoop]
      split
      · simp
      · simpa using Nat.succ_le_succ (ih _ _)

/-- Unfolding the exponent sequence by one step. -/
theorem nseq_succ (ops : RealOps) (pref qt se st fr : F) (k : Nat) :
    nseq ops pref qt se st fr (k + 1) =
      nstep ops pref qt se st fr (nseq ops pref qt se st fr k) :=
  Function.iterate_succ_apply' ..

/-- The loop, started at the `j`-th element of the exponent sequence,
stops at the first convergent step below its fuel (accepting the
candidate value and flagging convergence), or exhausts its fuel
(keeping the last accepted value and, when it iterated at all,
flagging the last — necessarily failed — test). -/
theorem behaviorLoop_eq_find (ops : RealOps) (pref tol qt se st fr : F) :
    ∀ (fuel j : Nat) (c : Bool),
      behaviorLoop ops pref tol qt se st fr fuel (nseq ops pref qt se st fr j) c =
        match (List.range fuel).find?
            (fun k => convAt ops pref tol qt se st fr (j + k)) with
        | some k => (nseq ops pref qt se st fr (j + k + 1), true, k + 1)
        | none => (nseq ops pref qt se st fr (j + fuel),
                   if fuel = 0 then c else false, fuel) := by
  intro fuel
  induction fuel with
  | zero => intro j c; simp [behaviorLoop]
  | succ fuel ih =>
      intro j c
      have hstep : calc_n pref (calc_ic ops
          (calc_qtn ops pref (nseq ops pref qt se st fr j) qt se st) fr) se =
          nseq ops pref qt se st fr (j + 1) := by
        rw [nseq_succ]; rfl
      have hconv : Fle (Fabs (Fsub (nseq ops pref qt se st fr (j + 1))
          (nseq ops pref qt se st fr j))) tol =
          convAt ops pref tol qt se st fr j := rfl
      rw [behaviorLoop, List.range_succ_eq_map, List.find?_cons]
      rw [hstep, hconv]
      cases h : convAt ops pref tol qt se st fr j with
      | true =>
          have h0 : convAt ops pref tol qt se st fr (j + 0) = true := by
            simpa using h
          simp [h, h0]
      | false =>
          have h0 : convAt ops pref tol qt se st fr (j + 0) = false := by
            simpa using h
          simp only [h, h0, Bool.false_eq_true, if_false, ih (j + 1) false,
            List.find?_map]
          have harg : ((fun k => convAt ops pref tol qt se st fr (j + k)) ∘
              (fun n => n + 1)) = (fun k => convAt ops pref tol qt se st fr (j + 1 + k)) := by
            funext k
            simp only [Function.comp]
            have : j + (k + 1) = j + 1 + k := by omega
            rw [this]
          rw [harg]
          cases hf : (List.range fuel).find?
              (fun k => convAt ops pref tol qt se st fr (j + 1 + k)) with
          | some k =>
              have e1 : j + 1 + k + 1 = j + (k + 1) + 1 := by omega
              simp [e1]
          | none =>
              have e2 : j + 1 + fuel = j + (fuel + 1) := by omega
              simp [e2]

/-- C1: for every non-skipped row, the solver loop — started at
`n = 1.0` with loop bound `max_iter - 1` — equals its closed-form
specification: it accepts the candidate `n_(k+1)` and declares
convergence exactly at the first step `k < max_iter - 1` whose
candidate satisfies `|n_(k+1) - n_k| <= tolerance` (else it keeps
`n_(max_iter-1)` and is flagged not-converged), the final `Qtn` and
`Ic` are recomputed from the last accepted exponent, and at most
`max_iter - 1` iterations are executed. -/
theorem behavior_solver_iteration (ops : RealOps) (pref : F) (max_iter : Nat)
    (tol qt sigv_eff sigv_tot fr : F) (hmi : 1 ≤ max_iter)
    (hfr : (Flt fr (F.fin 0) || FisNan fr) = false) :
    behaviorRow ops pref (max_iter - 1) tol qt sigv_eff sigv_tot fr =
      solverSpec ops pref tol qt sigv_eff sigv_tot fr (max_iter - 1) ∧
    nseq ops pref qt sigv_eff sigv_tot fr 0 = F.fin 1 ∧
    (behaviorLoop ops pref tol qt sigv_eff sigv_tot fr (max_iter - 1)
      (F.fin 1) false).2.2 ≤ max_iter - 1 := by
  refine ⟨?_, rfl,
    behaviorLoop_steps_le ops pref tol qt sigv_eff sigv_tot fr (max_iter - 1)
      (F.fin 1) false⟩
  have h0 : (F.fin 1) = nseq ops pref qt sigv_eff sigv_tot fr 0 := rfl
  unfold behaviorRow solverSpec firstConv
  simp only [hfr, Bool.false_eq_true, if_false]
  rw [h0, behaviorLoop_eq_find ops pref tol qt sigv_eff sigv_tot fr (max_iter - 1) 0 false]
  simp only [Nat.zero_add]
  cases hf : (List.range (max_iter - 1)).find?
      (fun k => convAt ops pref tol qt sigv_eff sigv_tot fr k) with
  | some k => simp [hf]
  | none => simp [hf]

/-- Closed instantiation of `behavior_solver_iteration` with
`max_iter = 1` (zero loop iterations) on a concrete non-skipped row. -/
theorem behavior_solver_iteration_witness :
    behaviorRow opsPow1 (F.fin 100) 0 (F.fin 1) (F.fin 2000) (F.fin 20) (F.fin 20)
      (F.fin 1) =
      solverSpec opsPow1 (F.fin 100) (F.fin 1) (F.fin 2000) (F.fin 20) (F.fin 20)
        (F.fin 1) 0 ∧
    nseq opsPow1 (F.fin 100) (F.fin 2000) (F.fin 20) (F.fin 20) (F.fin 1) 0 =
      F.fin 1 ∧
    (behaviorLoop opsPow1 (F.fin 100) (F.fin 1) (F.fin 2000) (F.fin 20) (F.fin 20)
      (F.fin 1) 0 (F.fin 1) false).2.2 ≤ 0 :=
  behavior_solver_iteration opsPow1 (F.fin 100) 1 (F.fin 1) (F.fin 2000) (F.fin 20)
    (F.fin 20) (F.fin 1) (by omega) (by decide)

/-- C2: a row whose `Fr` is negative or NaN is skipped: no iteration
runs (not even the `max_iter - 1` loop-bound computation) and the
result is `n = NaN`, `Qtn = NaN`, `Ic = NaN` with the not-applicable
(`none`) convergence flag, independent of the row's other inputs. -/
theorem behavior_skip_rule (ops : RealOps) (pref : F) (fuel : Nat)
    (tol qt sigv_eff sigv_tot fr : F)
    (h : Flt fr (F.fin 0) = true ∨ FisNan fr = true) :
    behaviorRow ops pref fuel tol qt sigv_eff sigv_tot fr =
      (F.nan, F.nan, F.nan, none) ∧
    ∀ max_iter : Nat,
      behaviorRowChecked ops pref max_iter tol qt sigv_eff sigv_tot fr =
        some (F.nan, F.nan, F.nan, none) := by
  have hb : (Flt fr (F.fin 0) || FisNan fr) = true := by
    rcases h with h | h <;> simp [h]
  constructor
  · simp [behaviorRow, hb]
  · intro mi
    simp [behaviorRowChecked, hb]

/-- Closed instantiation of `behavior_skip_rule` at `Fr = -1`
(including the `max_iter = 0` case, which would underflow were the
row not skipped). -/
theorem behavior_skip_rule_witness :
    behaviorRow opsPow1 (F.fin 100) 5 (F.fin 1) (F.fin 2000) (F.fin 20) (F.fin 20)
      (F.fin (-1)) = (F.nan, F.nan, F.nan, none) ∧
    behaviorRowChecked opsPow1 (F.fin 100) 0 (F.fin 1) (F.fin 2000) (F.fin 20)
      (F.fin 20) (F.fin (-1)) = some (F.nan, F.nan, F.nan, none) := by
  have h := behavior_skip_rule opsPow1 (F.fin 100) 5 (F.fin 1) (F.fin 2000)
    (F.fin 20) (F.fin 20) (F.fin (-1)) (Or.inl (by decide))
  exact ⟨h.1, h.2 0⟩

/-- C10: the solver is well-defined only under `max_iter ≥ 1`: the
loop bound is the unsigned subtraction `max_iter - 1`, which
underflows (debug-build panic, modelled `none`) on every non-skipped
row when `max_iter = 0`, with no prior validation; for `max_iter ≥ 1`
the subtraction succeeds with `max_iter - 1` and the loop executes at
most `max_iter - 1` iterations. -/
theorem behavior_max_iter_precondition (max_iter : Nat) :
    (max_iter = 0 →
      usizeSub max_iter 1 = none ∧
      ∀ (ops : RealOps) (pref tol qt sigv_eff sigv_tot fr : F),
        (Flt fr (F.fin 0) || FisNan fr) = false →
        behaviorRowChecked ops pref max_iter tol qt sigv_eff sigv_tot fr = none) ∧
    (1 ≤ max_iter →
      usizeSub max_iter 1 = some (max_iter - 1) ∧
      ∀ (ops : RealOps) (pref tol qt sigv_eff sigv_tot fr : F),
        ((Flt fr (F.fin 0) || FisNan fr) = false →
          behaviorRowChecked ops pref max_iter tol qt sigv_eff sigv_tot fr =
            some (behaviorRow ops pref (max_iter - 1) tol qt sigv_eff sigv_tot fr)) ∧
        ∀ (n : F) (c : Bool),
          (behaviorLoop ops pref tol qt sigv_eff sigv_tot fr (max_iter - 1) n c).2.2 ≤
            max_iter - 1) := by
  constructor
  · rintro rfl
    refine ⟨by simp [usizeSub], ?_⟩
    intro ops pref tol qt se st fr hfr
    simp [behaviorRowChecked, hfr, usizeSub]
  · intro h1
    refine ⟨by simp [usizeSub, h1], ?_⟩
    intro ops pref tol qt se st fr
    refine ⟨?_, ?_⟩
    · intro hfr
      simp [behaviorRowChecked, hfr, usizeSub, h1]
    · intro n c
      exact behaviorLoop_steps_le ops pref tol qt se st fr (max_iter - 1) n c

/-- Closed instantiation of `behavior_max_iter_precondition` at
`max_iter = 0` (underflow) and `max_iter = 3` (safe subtraction and
loop bound). -/
theorem behavior_max_iter_precondition_witness :
    usizeSub 0 1 = none ∧
    behaviorRowChecked opsPow1 (F.fin 100) 0 (F.fin 1) (F.fin 2000) (F.fin 20)
      (F.fin 20) (F.fin 1) = none ∧
    usizeSub 3 1 = some 2 ∧
    behaviorRowChecked opsPow1 (F.fin 100) 3 (F.fin 1) (F.fin 2000) (F.fin 20)
      (F.fin 20) (F.fin 1) =
      some (behaviorRow opsPow1 (F.fin 100) 2 (F.fin 1) (F.fin 2000) (F.fin 20)
        (F.fin 20) (F.fin 1)) ∧
    (behaviorLoop opsPow1 (F.fin 100) (F.fin 1) (F.fin 2000) (F.fin 20) (F.fin 20)
      (F.fin 1) 2 (F.fin 1) false).2.2 ≤ 2 := by
  have h0 := behavior_max_iter_precondition 0
  have h3 := behavior_max_iter_precondition 3
  have hfr : (Flt (F.fin 1) (F.fin 0) || FisNan (F.fin 1)) = false := by decide
  exact ⟨(h0.1 rfl).1, (h0.1 rfl).2 opsPow1 _ _ _ _ _ _ hfr,
    (h3.2 (by omega)).1,
    ((h3.2 (by omega)).2 opsPow1 (F.fin 100) (F.fin 1) (F.fin 2000) (F.fin 20)
      (F.fin 20) (F.fin 1)).1 hfr,
    ((h3.2 (by omega)).2 opsPow1 (F.fin 100) (F.fin 1) (F.fin 2000) (F.fin 20)
      (F.fin 20) (F.fin 1)).2 (F.fin 1) false⟩

/-- Indexing a positionally built row list. -/
theorem getElem?_map_range {β : Type} (n : Nat) (f : Nat → β) (i : Nat) (hi : i < n) :
    ((List.range n).map f)[i]? = some (f i) := by
  simp [List.getElem?_map, List.getElem?_range hi]

/-- C8: every pipeline stage except the Cleaner's remove operation
preserves the row count AND the positional row order: `replace_rows`
maps each input row at index `i` to its transform at the same index;
`adjust_depth` (on success) maps each input row at index `i` to the
same row with only depth cells regenerated at that index;
`add_stress_cols` and `add_behavior_cols` (on success) return at each
index `i` the input row at index `i` extended by the derived cells
(and the solver's flag list has one flag per row); only `remove_rows`
may drop rows — it returns a sublist (kept rows in their original
relative order), so the row count is non-increasing through the whole
pipeline. -/
theorem pipeline_row_counts :
    (∀ (df : Frame F) (I : List F) (v : F),
      (replace_rows df I v).rows.length = df.rows.length ∧
      ∀ (i : Nat) (r : List F), df.rows[i]? = some r →
        (replace_rows df I v).rows[i]? = some
          (if rowMatches I r then
            List.zipWith (fun nm x => if nm == COL_DEPTH then x else v) df.names r
          else r)) ∧
    (∀ (df : Frame F) (s sp : Option F) (out : Frame F),
      adjust_depth df s sp = .ok out →
      out.rows.length = df.rows.length ∧
      ∃ start sp3 : F, ∀ (i : Nat) (r : List F), df.rows[i]? = some r →
        out.rows[i]? = some (List.zipWith
          (fun nm x =>
            if nm == COL_DEPTH then Fadd start (Fmul (F.fin (i : ℚ)) sp3) else x)
          df.names r)) ∧
    (∀ (df : Frame F) (a gamma : F) (rolling : Nat) (out : Frame F),
      add_stress_cols df a gamma rolling = .ok out →
      out.rows.length = df.rows.length ∧
      ∀ (i : Nat) (r : List F), df.rows[i]? = some r →
        ∃ derived : List F, out.rows[i]? = some (r ++ derived)) ∧
    (∀ (ops : RealOps) (pref : F) (df : Frame F) (max_iter : Nat) (tol : F)
      (out : Frame F) (flags : List (Option Bool)),
      add_behavior_cols ops pref df max_iter tol = .ok (out, flags) →
      out.rows.length = df.rows.length ∧ flags.length = df.rows.length ∧
      ∀ (i : Nat) (r : List F), df.rows[i]? = some r →
        ∃ derived : List F, out.rows[i]? = some (r ++ derived)) ∧
    (∀ (df : Frame F) (I : List F),
      (remove_rows df I).rows.Sublist df.rows ∧
      (remove_rows df I).rows.length ≤ df.rows.length) := by
  refine ⟨?_, ?_, ?_, ?_, ?_⟩
  · intro df I v
    refine ⟨by simp [replace_rows], ?_⟩
    intro i r hr
    simp [replace_rows, List.getElem?_map, hr]
  · intro df s sp out h
    unfold adjust_depth at h
    split at h
    · cases h
    · split at h
      · cases h
      · split at h
        · cases h
        · split at h
          · cases h
          · obtain rfl := (Except.ok.inj h).symm
            rename_i x1 start heq1 x2 sp0 heq2
            refine ⟨by simp only [regenDepth, List.length_map, List.length_range],
              start, Fround3 sp0, ?_⟩
            intro i r hr
            have hi : i < df.rows.length := (List.getElem?_eq_some.mp hr).1
            have hgd : df.rows.getD i [] = r := by
              simp [List.getD_eq_getElem?_getD, hr]
            simp only [regenDepth, getElem?_map_range _ _ _ hi]
            rw [hgd]
  · intro df a gamma rolling out h
    unfold add_stress_cols at h
    split at h
    · obtain rfl := (Except.ok.inj h).symm
      refine ⟨by simp, ?_⟩
      intro i r hr
      have hi : i < df.rows.length := (List.getElem?_eq_some.mp hr).1
      have hgd : df.rows.getD i [] = r := by
        simp [List.getD_eq_getElem?_getD, hr]
      simp only [getElem?_map_range _ _ _ hi]
      rw [hgd, List.append_assoc, List.append_assoc]
      exact ⟨_, rfl⟩
    · cases h
  · intro ops pref df max_iter tol out flags h
    unfold add_behavior_cols at h
    split at h
    · split at h
      · obtain ⟨rfl, rfl⟩ := Prod.mk.injEq .. ▸ (Except.ok.inj h).symm
        refine ⟨by simp, by simp, ?_⟩
        intro i r hr
        have hi : i < df.rows.length := (List.getElem?_eq_some.mp hr).1
        have hgd : df.rows.getD i [] = r := by
          simp [List.getD_eq_getElem?_getD, hr]
        simp only [getElem?_map_range _ _ _ hi]
        rw [hgd]
        exact ⟨_, rfl⟩
      · cases h
    · cases h
  · intro df I
    exact ⟨List.filter_sublist _, (List.filter_sublist _).length_le⟩

/-- Closed instantiation of `pipeline_row_counts`: one-row tables
through every stage — `replace_rows` and its per-index row transform,
`adjust_depth` with NaN start/spacing, `add_stress_cols` and
`add_behavior_cols` on NaN-propagating rows (each output row extends
its input row), and `remove_rows` on a one-row table. -/
theorem pipeline_row_counts_witness :
    ((replace_rows (⟨[COL_DEPTH], [[F.fin 1]]⟩ : Frame F) [F.fin 5] F.nan).rows.length =
      (⟨[COL_DEPTH], [[F.fin 1]]⟩ : Frame F).rows.length ∧
     (replace_rows (⟨[COL_DEPTH], [[F.fin 1]]⟩ : Frame F) [F.fin 5] F.nan).rows[0]? =
      some (if rowMatches [F.fin 5] [F.fin 1] then
        List.zipWith (fun nm x => if nm == COL_DEPTH then x else F.nan)
          (⟨[COL_DEPTH], [[F.fin 1]]⟩ : Frame F).names [F.fin 1]
      else [F.fin 1])) ∧
    ((⟨[COL_DEPTH], [[F.nan]]⟩ : Frame F).rows.length =
      (⟨[COL_DEPTH], [[F.fin 7]]⟩ : Frame F).rows.length ∧
     ∃ start sp3 : F,
      (⟨[COL_DEPTH], [[F.nan]]⟩ : Frame F).rows[0]? =
        some (List.zipWith
          (fun nm x =>
            if nm == COL_DEPTH then
              Fadd start (Fmul (F.fin ((0 : Nat) : ℚ)) sp3)
            else x)
          (⟨[COL_DEPTH], [[F.fin 7]]⟩ : Frame F).names [F.fin 7])) ∧
    (dfSout.rows.length = dfS.rows.length ∧
     ∃ derived : List F, dfSout.rows[0]? =
      some ([F.nan, F.nan, F.nan, F.nan, F.nan] ++ derived)) ∧
    (dfBout.rows.length = dfB.rows.length ∧
     ∃ derived : List F, dfBout.rows[0]? =
      some ([F.fin 20, F.fin 20, F.fin 2, F.nan] ++ derived)) ∧
    (remove_rows (⟨[COL_DEPTH], [[F.fin 1]]⟩ : Frame F) [F.fin 1]).rows.length ≤
      (⟨[COL_DEPTH], [[F.fin 1]]⟩ : Frame F).rows.length := by
  have h := pipeline_row_counts
  have hrep := h.1 (⟨[COL_DEPTH], [[F.fin 1]]⟩ : Frame F) [F.fin 5] F.nan
  have hadj := h.2.1 (⟨[COL_DEPTH], [[F.fin 7]]⟩ : Frame F) (some F.nan) (some F.nan)
    (⟨[COL_DEPTH], [[F.nan]]⟩ : Frame F) rfl
  obtain ⟨hadjlen, start, sp3, hadjrow⟩ := hadj
  have hstress := h.2.2.1 dfS F.nan F.nan 1 dfSout rfl
  have hbeh := h.2.2.2.1 opsPow1 (F.fin 100) dfB 1 (F.fin 1) dfBout [none] rfl
  exact ⟨⟨hrep.1, hrep.2 0 [F.fin 1] rfl⟩,
    ⟨hadjlen, start, sp3, hadjrow 0 [F.fin 7] rfl⟩,
    ⟨hstress.1, hstress.2 0 [F.nan, F.nan, F.nan, F.nan, F.nan] rfl⟩,
    ⟨hbeh.1, hbeh.2.2 0 [F.fin 20, F.fin 20, F.fin 2, F.nan] rfl⟩,
    (h.2.2.2.2 _ _).2⟩

/-- Evaluation of the stress stage on the counterexample table: with
window `3`, the middle row's smoothed `qt [rolling]` is `2` while its
raw `qt` is `1`. -/
theorem dfC4stress_eval :
    add_stress_cols dfC4 (F.fin 1) (F.fin 10) 3 = .ok dfC4stress := by
  have h1 : colD dfC4 COL_DEPTH = some [F.fin 1, F.fin 2, F.fin 3] := rfl
  have h2 : colD dfC4 COL_U0 = some [F.fin 0, F.fin 0, F.fin 0] := rfl
  have h3 : colD dfC4 COL_QC = some [F.fin 1, F.fin 1, F.fin 4] := rfl
  have h4 : colD dfC4 COL_U2 = some [F.fin 0, F.fin 0, F.fin 0] := rfl
  have h5 : colD dfC4 COL_FS = some [F.fin 0, F.fin 0, F.fin 0] := rfl
  unfold add_stress_cols
  rw [h1, h2, h3, h4, h5]
  show Except.ok _ = _
  unfold dfC4stress
  norm_num [rollingMean, Fsum, List.range_succ, List.getD,
    Fadd, Fsub, Fmul, Fdiv, Fneg, dfC4]

/-- Evaluation of the solver stage on the counterexample stress table
with `max_iter = 1`: row 1 gets `n = 1` and `Qtn = 99`. -/
theorem dfC4out_eval :
    add_behavior_cols opsPow1 (F.fin 100) dfC4stress 1 (F.fin 1) =
      .ok (dfC4out, flagsC4) := by
  have h1 : colD dfC4stress COL_SIGV_TOT = some [F.fin 10, F.fin 20, F.fin 30] := rfl
  have h2 : colD dfC4stress COL_SIGV_EFF = some [F.fin 10, F.fin 20, F.fin 30] := rfl
  have h3 : colD dfC4stress COL_QT_ROL = some [F.nan, F.fin 2, F.nan] := rfl
  have h4 : colD dfC4stress COL_FR = some [F.nan, F.fin 0, F.nan] := rfl
  unfold add_behavior_cols
  rw [h1, h2, h3, h4]
  show ite _ _ _ = _
  unfold dfC4out flagsC4
  norm_num [behaviorRowAt, behaviorRowChecked, behaviorRow, behaviorLoop, usizeSub,
    calc_qtn, calc_ic, calc_n, opsPow1, Fadd, Fsub, Fmul, Fdiv, Fneg, Fabs, Fle,
    Flt, FisNan, Fmin, FpowNat, List.range_succ, List.getD, dfC4stress]

/-- C4 counterexample: with window `3`, the pipeline on `dfC4`
(`area_ratio = 1`, `gamma = 10`, `P_ref = 100`, `max_iter = 1`)
produces `Qtn = 99` at row 1 — computed from the smoothed
`qt [rolling] = 2` — whereas the claim's formula on the row's raw `qt`
column value (`1` MPa, × 1000) with the row's final exponent `n = 1`
yields `49 ≠ 99`. -/
theorem behavior_qtn_counterexample :
    add_stress_cols dfC4 (F.fin 1) (F.fin 10) 3 = .ok dfC4stress ∧
    add_behavior_cols opsPow1 (F.fin 100) dfC4stress 1 (F.fin 1) =
      .ok (dfC4out, flagsC4) ∧
    colD dfC4stress COL_QT = some [F.fin 1, F.fin 1, F.fin 4] ∧
    colD dfC4stress COL_QT_ROL = some [F.nan, F.fin 2, F.nan] ∧
    colD dfC4out COL_QTN = some [F.nan, F.fin 99, F.nan] ∧
    colD dfC4out COL_N = some [F.nan, F.fin 1, F.nan] ∧
    qtnFormula opsPow1 (F.fin 100) (Fmul (F.fin 1) (F.fin 1000)) (F.fin 20)
      (F.fin 20) (F.fin 1) = F.fin 49 ∧
    F.fin 99 ≠ F.fin 49 := by
  refine ⟨dfC4stress_eval, dfC4out_eval, rfl, rfl, rfl, rfl, ?_, by decide⟩
  unfold qtnFormula opsPow1
  norm_num [Fmul, Fsub, Fadd, Fneg, Fdiv]

/-- C4 as amended: the solver computes `Qtn` from the SMOOTHED
corrected resistance — the `qt [rolling]` column, which equals the
`qt` column when `W = 1` — converted `× 1000` from MPa to kPa, as
`Qtn = ((qt_rol·1000 − sigma_v_tot)/P_ref) · (P_ref/sigma_v_eff)^n`:
(i) on every non-skipped row the final `Qtn` satisfies the formula at
the final exponent; (ii) the frame-level solver feeds each row the
`qt [rolling]` cell `× 1000`; (iii) with `W = 1` the stress stage
makes the `qt [rolling]` cell equal to the `qt` cell of every row. -/
theorem behavior_qtn_from_smoothed :
    (∀ (ops : RealOps) (pref : F) (fuel : Nat) (tol qt sigv_eff sigv_tot fr : F),
      (Flt fr (F.fin 0) || FisNan fr) = false →
      (behaviorRow ops pref fuel tol qt sigv_eff sigv_tot fr).2.1 =
        qtnFormula ops pref qt sigv_tot sigv_eff
          (behaviorRow ops pref fuel tol qt sigv_eff sigv_tot fr).1) ∧
    (∀ (ops : RealOps) (pref : F) (df : Frame F) (max_iter : Nat) (tol : F)
      (out : Frame F) (flags : List (Option Bool)) (st se qtr fr : List F) (i : Nat),
      colD df COL_SIGV_TOT = some st → colD df COL_SIGV_EFF = some se →
      colD df COL_QT_ROL = some qtr → colD df COL_FR = some fr →
      add_behavior_cols ops pref df max_iter tol = .ok (out, flags) →
      i < df.rows.length →
      out.rows[i]? = some (df.rows.getD i [] ++
        (let o := (behaviorRowAt ops pref max_iter tol st se qtr fr i).getD
          (F.nan, F.nan, F.nan, none)
         let fr_i := fr.getD i F.nan
         [o.1, o.2.1, o.2.2.1,
          Fmul (Fsub o.2.1 (F.fin 11))
            (FpowNat (Fadd (F.fin 1) (Fmul (F.fin (6 / 100)) fr_i)) 17),
          Fdiv (Fmul (F.fin 100) (Fadd o.2.1 (F.fin 10)))
            (Fadd (F.fin 70) (Fmul o.2.1 fr_i))]))) ∧
    (∀ (df : Frame F) (a gamma : F) (out : Frame F),
      df.wf → add_stress_cols df a gamma 1 = .ok out →
      ∀ (i : Nat) (r' : List F), out.rows[i]? = some r' →
        r'[df.names.length + 3]? = r'[df.names.length + 2]?) := by
  refine ⟨?_, ?_, ?_⟩
  · intro ops pref fuel tol qt se st fr hfr
    unfold behaviorRow
    simp only [hfr, Bool.false_eq_true, if_false]
    rfl
  · intro ops pref df mi tol out flags st se qtr fr i hst hse hqtr hfr hok hi
    unfold add_behavior_cols at hok
    rw [hst, hse, hqtr, hfr] at hok
    dsimp only at hok
    split at hok
    · have hpair := Except.ok.inj hok
      rw [Prod.ext_iff] at hpair
      obtain ⟨h1f, h2f⟩ := hpair
      subst h1f
      simp only [List.getElem?_map, List.getElem?_range hi]
      rfl
    · exact Except.noConfusion hok
  · intro df a gamma out hwf hok i r' hr'
    unfold add_stress_cols at hok
    split at hok
    case _ depth u0 qc u2 fs hd hu0 hqc hu2 hfs =>
      obtain rfl := (Except.ok.inj hok).symm
      have hi : i < df.rows.length := by
        have := (List.getElem?_eq_some.mp hr').1
        simpa using this
      rw [List.getElem?_map, List.getElem?_range hi] at hr'
      obtain rfl := (Option.some.inj hr').symm
      have hrowlen : (df.rows.getD i []).length = df.names.length := by
        have hgd : df.rows.getD i [] = df.rows[i] := by
          rw [List.getD_eq_getElem?_getD, List.getElem?_eq_getElem hi]
          rfl
        rw [hgd]
        exact hwf _ (List.getElem_mem ..)
      have h3 : (df.rows.getD i []).length ≤ df.names.length + 3 := by omega
      have h2 : (df.rows.getD i []).length ≤ df.names.length + 2 := by omega
      simp only [List.append_assoc]
      rw [List.getElem?_append_right h3, List.getElem?_append_right h2, hrowlen]
      have e3 : df.names.length + 3 - df.names.length = 3 := by omega
      have e2 : df.names.length + 2 - df.names.length = 2 := by omega
      rw [e3, e2]
      simp
    case _ =>
      exact Except.noConfusion hok

/-- Closed instantiation of `behavior_qtn_from_smoothed`: part (i) on
a concrete non-skipped row, part (ii) on the counterexample pipeline at
row 1, part (iii) on a one-row table with window `1`. -/
theorem behavior_qtn_from_smoothed_witness :
    ((behaviorRow opsPow1 (F.fin 100) 0 (F.fin 1) (F.fin 2000) (F.fin 20) (F.fin 20)
        (F.fin 1)).2.1 =
      qtnFormula opsPow1 (F.fin 100) (F.fin 2000) (F.fin 20) (F.fin 20)
        (behaviorRow opsPow1 (F.fin 100) 0 (F.fin 1) (F.fin 2000) (F.fin 20)
          (F.fin 20) (F.fin 1)).1) ∧
    dfC4out.rows[1]? = some (dfC4stress.rows.getD 1 [] ++
      (let o := (behaviorRowAt opsPow1 (F.fin 100) 1 (F.fin 1)
          [F.fin 10, F.fin 20, F.fin 30] [F.fin 10, F.fin 20, F.fin 30]
          [F.nan, F.fin 2, F.nan] [F.nan, F.fin 0, F.nan] 1).getD
          (F.nan, F.nan, F.nan, none)
       let fr_i := ([F.nan, F.fin 0, F.nan] : List F).getD 1 F.nan
       [o.1, o.2.1, o.2.2.1,
        Fmul (Fsub o.2.1 (F.fin 11))
          (FpowNat (Fadd (F.fin 1) (Fmul (F.fin (6 / 100)) fr_i)) 17),
        Fdiv (Fmul (F.fin 100) (Fadd o.2.1 (F.fin 10)))
          (Fadd (F.fin 70) (Fmul o.2.1 fr_i))])) ∧
    ([F.fin 1, F.fin 1, F.fin 0, F.fin 0, F.fin 0,
      F.fin 10, F.fin 10, F.fin 1, F.fin 1, F.fin 0, F.fin 0, F.fin 0] :
      List F)[5 + 3]? =
    ([F.fin 1, F.fin 1, F.fin 0, F.fin 0, F.fin 0,
      F.fin 10, F.fin 10, F.fin 1, F.fin 1, F.fin 0, F.fin 0, F.fin 0] :
      List F)[5 + 2]? := by
  have h := behavior_qtn_from_smoothed
  have hW1 : add_stress_cols dfW1 (F.fin 1) (F.fin 10) 1 = .ok dfW1out := by
    have hd : colD dfW1 COL_DEPTH = some [F.fin 1] := rfl
    have hu0 : colD dfW1 COL_U0 = some [F.fin 0] := rfl
    have hqc : colD dfW1 COL_QC = some [F.fin 1] := rfl
    have hu2 : colD dfW1 COL_U2 = some [F.fin 0] := rfl
    have hfs : colD dfW1 COL_FS = some [F.fin 0] := rfl
    unfold add_stress_cols
    rw [hd, hu0, hqc, hu2, hfs]
    show Except.ok _ = _
    unfold dfW1out
    norm_num [List.range_succ, List.getD, Fadd, Fsub, Fmul, Fdiv, Fneg, dfW1]
  refine ⟨h.1 opsPow1 (F.fin 100) 0 (F.fin 1) (F.fin 2000) (F.fin 20) (F.fin 20)
      (F.fin 1) (by decide),
    h.2.1 opsPow1 (F.fin 100) dfC4stress 1 (F.fin 1) dfC4out flagsC4
      [F.fin 10, F.fin 20, F.fin 30] [F.fin 10, F.fin 20, F.fin 30]
      [F.nan, F.fin 2, F.nan] [F.nan, F.fin 0, F.nan] 1
      rfl rfl rfl rfl dfC4out_eval (by norm_num [dfC4stress]),
    h.2.2 dfW1 (F.fin 1) (F.fin 10) dfW1out ?_ hW1 0
      [F.fin 1, F.fin 1, F.fin 0, F.fin 0, F.fin 0,
       F.fin 10, F.fin 10, F.fin 1, F.fin 1, F.fin 0, F.fin 0, F.fin 0] rfl⟩
  intro r hr
  unfold dfW1 at hr
  simp only [List.mem_singleton] at hr
  subst hr
  rfl

end Conic
